import Mathlib

/-
Verification development for the confound time-series generation pipeline of
the hypotmri repository.  The pipeline exists in three near-duplicate source
variants:

  * src/experimental/s04_generate_confounds_nipy.py   (the "experimental" variant)
  * src/preproc/functional/s04_generate_confounds_nipy.py   (the "preproc" variant)
  * src/experimental/s04_generate_confounds_old.py    (the "old" variant)

The development shallowly embeds the parts of those scripts that the claims
C1-C10 are about: series-length enforcement and padding
(`enforce_length_1d`, the preproc DVARS/FD padding blocks), the 24-parameter
motion expansion (`motion_df_from_mcflirt`), the masked mean signal
(`mean_signal`), the MCFLIRT motion-parameter loader (`load_mcflirt_par`),
the discrete-cosine drift basis (`cosine_drift_terms`), and the column
ordering of the assembled confound tables.

Modelling conventions:

  * A float series cell is `Option ℚ`: `none` models the floating-point NaN
    missing-value marker (`np.nan`), `some v` an ordinary value.  Rationals
    stand in for float64 values; none of the verified properties depend on
    rounding.
  * A raised Python exception is `Except.error` carrying the message the
    source formats.
  * The cosine basis is embedded over ℝ, since its columns are values of
    `Real.cos`; `np.nanstd` of a column (population standard deviation; the
    columns contain no NaNs) is embedded exactly.
-/

/-- A confound-series cell: `none` is the NaN missing-value marker. -/
abbrev RVal := Option ℚ

/-! ## Series length enforcement (experimental variant)

Embeds `enforce_length_1d` from
`src/experimental/s04_generate_confounds_nipy.py` lines 132-151.  Python's
`len(x) in (T - 1, T - 2)` computes `T - 1`, `T - 2` over ℤ, hence the casts:
for `T = 1` the value `T - 2 = -1` can never equal a length. -/
def enforce_length_1d (name : String) (x : Option (List RVal)) (T : ℕ)
    (padValue : RVal) : Except String (List RVal) :=
  match x with
  | none => .ok (List.replicate T none)
  | some xs =>
    if xs.length = T then .ok xs
    else if (xs.length : ℤ) = (T : ℤ) - 1 ∨ (xs.length : ℤ) = (T : ℤ) - 2 then
      .ok (List.replicate (T - xs.length) padValue ++ xs)
    else
      .error (name ++ " length (" ++ toString xs.length ++ ") != T (" ++ toString T ++
        "), T-1 (" ++ toString ((T : ℤ) - 1) ++ "), or T-2 (" ++ toString ((T : ℤ) - 2) ++ ").")

/-! ## DVARS and FD handling in the preproc variant

Embeds the padding blocks of `main` in
`src/preproc/functional/s04_generate_confounds_nipy.py`: DVARS (lines
238-248) pads only a length `T-2` series, with literal `0.0`, and then the
pandas column assignment `conf["dvars"] = dvars_nstd` demands length `T`
(raising otherwise); FD (lines 227-235) pads a length `T-1` series with a
leading `0.0` and raises for any other non-`T` length. -/
def preproc_pad_dvars (xs : List RVal) (T : ℕ) : List RVal :=
  if (xs.length : ℤ) = (T : ℤ) - 2 then some 0 :: some 0 :: xs else xs

def preproc_assign_dvars (xs : List RVal) (T : ℕ) : Except String (List RVal) :=
  if (preproc_pad_dvars xs T).length = T then .ok (preproc_pad_dvars xs T)
  else .error "Length of values does not match length of index"

def preproc_fd_assign (xs : List RVal) (T : ℕ) : Except String (List RVal) :=
  if xs.length = T then .ok xs
  else if (xs.length : ℤ) = (T : ℤ) - 1 then .ok (some 0 :: xs)
  else .error ("FD length (" ++ toString xs.length ++ ") != BOLD timepoints (" ++
    toString T ++ ").")

/-! ## Framewise displacement of the old variant

Embeds `motion_metrics` from `src/experimental/s04_generate_confounds_old.py`
line 219: `fd = motion.diff().abs().sum(1).fillna(0)`.  The first `diff` row
is all-NaN; pandas `sum` skips NaNs (an empty row sums to 0) and `fillna(0)`
forces 0 regardless, so frame 0 is the defined value 0. -/
def old_fd (motion : List (Fin 6 → ℚ)) : List ℚ :=
  match motion with
  | [] => []
  | _ :: rest =>
      0 :: List.zipWith (fun prev cur => ∑ j : Fin 6, |cur j - prev j|) motion rest

/-! ## Masked mean signal

Embeds `mean_signal` (preproc variant lines 119-125, experimental variant
lines 154-160).  The function first calls nilearn's `apply_mask`, whose mask
loading (`load_mask_img`) raises `ValueError` when the mask image selects
zero voxels — the mask array's only value is 0 — so for an empty mask the
exception is raised inside the library call; the function's own
`if X.shape[1] == 0: return np.full((T,), np.nan)` fallback, kept below as
in the source, can then never run (dead code).  For a mask with `V ≥ 1`
voxels, `X` is the `(T, V)` matrix and the per-frame mean over the `V`
masked voxels is returned. -/
def apply_mask (V : ℕ) (X : ℕ → ℕ → ℚ) : Except String (ℕ → ℕ → ℚ) :=
  if V = 0 then .error "The mask is invalid as it is empty: it masks all data."
  else .ok X

def mean_signal (T V : ℕ) (X : ℕ → ℕ → ℚ) : Except String (List RVal) :=
  match apply_mask V X with
  | .error e => .error e
  | .ok Y =>
    if V = 0 then .ok (List.replicate T none)
    else .ok ((List.range T).map (fun t => some ((∑ v ∈ Finset.range V, Y t v) / V)))

/-! ## Motion expansion

Embeds `backward_diff`, `add_fmriprep_expansions` and
`motion_df_from_mcflirt` (experimental variant lines 70-105; the preproc
variant lines 65-90 computes the same columns in the same order).  A
DataFrame is a list of (column name, column values) pairs in insertion
order. -/
def backward_diff (x : List ℚ) : List ℚ :=
  match x with
  | [] => []
  | _ :: rest => 0 :: List.zipWith (fun cur prev => cur - prev) rest x

/-- Column `j` of the `T × 6` motion-parameter matrix. -/
def mcol (mp : List (Fin 6 → ℚ)) (j : Fin 6) : List ℚ := mp.map (fun r => r j)

/-- The six raw columns: MCFLIRT's `.par` stores rotations in columns 0-2 and
translations in columns 3-5, and the source names translations first. -/
def motion_base_df (mp : List (Fin 6 → ℚ)) : List (String × List ℚ) :=
  [("trans_x", mcol mp 3), ("trans_y", mcol mp 4), ("trans_z", mcol mp 5),
   ("rot_x", mcol mp 0), ("rot_y", mcol mp 1), ("rot_z", mcol mp 2)]

def dfLookup (df : List (String × List ℚ)) (c : String) : List ℚ :=
  (df.lookup c).getD []

def add_fmriprep_expansions (df : List (String × List ℚ)) (baseCols : List String) :
    List (String × List ℚ) :=
  df ++ baseCols.map (fun c => (c ++ "_derivative1", backward_diff (dfLookup df c)))
     ++ baseCols.map (fun c => (c ++ "_power2", (dfLookup df c).map (fun v => v ^ 2)))
     ++ baseCols.map (fun c => (c ++ "_derivative1_power2",
          (backward_diff (dfLookup df c)).map (fun v => v ^ 2)))

def motion_df_from_mcflirt (mp : List (Fin 6 → ℚ)) : List (String × List ℚ) :=
  add_fmriprep_expansions (motion_base_df mp)
    ["trans_x", "trans_y", "trans_z", "rot_x", "rot_y", "rot_z"]

/-! ## Motion-parameter loader

Embeds `load_mcflirt_par` (preproc variant lines 58-62, experimental variant
lines 63-67).  `np.loadtxt` squeezes trailing singleton dimensions: a
one-row file parses as a 1-D array, a one-column file as a 1-D array, a
single value as a 0-D array; only a file with at least two rows and two
columns parses as 2-D. -/
inductive NpArr
  | d0 (x : ℚ)
  | d1 (xs : List ℚ)
  | d2 (xss : List (List ℚ))

def np_loadtxt (rows : List (List ℚ)) : NpArr :=
  match rows with
  | [[x]] => .d0 x
  | [xs] => .d1 xs
  | _ =>
    if rows.all (fun r => r.length == 1) then .d1 (rows.map (fun r => r.headD 0))
    else .d2 rows

def load_mcflirt_par (rows : List (List ℚ)) : Except String (List (List ℚ)) :=
  match np_loadtxt rows with
  | .d2 xss =>
    if (xss.headD []).length = 6 then .ok xss
    else .error "Expected Nx6 motion params"
  | _ => .error "Expected Nx6 motion params"

/-! ## The motion-row-count guard

Both `main` functions raise a `ValueError` naming both counts when the motion
file's row count differs from the 4D volume's frame count `T` (experimental
variant lines 303-306, preproc variant lines 217-219), before the confound
table is assembled and written. -/
def motion_rows_guard (rows T : ℕ) : Except String Unit :=
  if rows ≠ T then
    .error ("Motion rows (" ++ toString rows ++ ") != BOLD timepoints (" ++ toString T ++
      "). If you dropped volumes, drop matching rows everywhere.")
  else .ok ()

/-! ## Column names and ordering of the assembled tables -/

/-- Python's `f"{i:02d}"`: zero-pad to at least two digits. -/
def pad2 (i : ℕ) : String := if i < 10 then "0" ++ toString i else toString i

def acomp_names (n : ℕ) : List String :=
  (List.range n).map (fun i => "a_comp_cor_" ++ pad2 i)

def cosine_drift_names (n : ℕ) : List String :=
  (List.range n).map (fun i => "cosine_" ++ pad2 i)

/-- Boolean prefix test on character lists (model of Python `str.startswith`). -/
def listPrefix : List Char → List Char → Bool
  | [], _ => true
  | _ :: _, [] => false
  | a :: as, b :: bs => a == b && listPrefix as bs

def startswith (s pre : String) : Bool := listPrefix pre.toList s.toList

/-- Boolean suffix test (model of Python `str.endswith`). -/
def endswith (s suf : String) : Bool := listPrefix suf.toList.reverse s.toList.reverse

/-- Stable ascending insertion into a sorted list (model of Python `sorted`). -/
def insertSorted (a : String) : List String → List String
  | [] => [a]
  | b :: bs => if a ≤ b then a :: b :: bs else b :: insertSorted a bs

def sortStr (l : List String) : List String := l.foldr insertSorted []

def motion_base_names : List String :=
  ["trans_x", "trans_y", "trans_z", "rot_x", "rot_y", "rot_z"]

def gs_base_names : List String := ["global_signal", "white_matter", "csf"]

/-- The four-way expansion order a DataFrame acquires from
`add_fmriprep_expansions`: raw, derivative, squared, derivative-squared. -/
def expand4 (names : List String) : List String :=
  names ++ names.map (fun c => c ++ "_derivative1") ++
    names.map (fun c => c ++ "_power2") ++
    names.map (fun c => c ++ "_derivative1_power2")

/-- Column names of the experimental variant's `conf` DataFrame in insertion
order, before the final reorder (`main` lines 313-344), with `nA` aCompCor
components and `nC` surviving cosine columns. -/
def experimental_conf_names (nA nC : ℕ) : List String :=
  expand4 motion_base_names ++ expand4 gs_base_names ++
    ["framewise_displacement", "dvars", "std_dvars"] ++
    acomp_names nA ++ cosine_drift_names nC

/-- The `preferred` list of the experimental variant's reorder
(`main` lines 347-366). -/
def experimental_preferred (nA nC : ℕ) : List String :=
  expand4 motion_base_names ++ expand4 gs_base_names ++
    ["framewise_displacement", "dvars", "std_dvars"] ++
    sortStr ((experimental_conf_names nA nC).filter (fun c => startswith c "a_comp_cor_")) ++
    sortStr ((experimental_conf_names nA nC).filter (fun c => startswith c "cosine_"))

/-- Final column order the experimental variant writes:
`conf = conf[preferred + remaining]` (`main` lines 367-369). -/
def experimental_final_names (nA nC : ℕ) : List String :=
  experimental_preferred nA nC ++
    (experimental_conf_names nA nC).filter
      (fun c => !decide (c ∈ experimental_preferred nA nC))

/-- Modelled from the spec (claim C5): the fixed column order the claim
asserts — motion block (raw, derivative, squared, derivative-squared), then
the mean signals with the same expansion, then framewise displacement, then
DVARS raw and standardized, then component-noise columns sorted by name,
then drift columns sorted by name, then nothing else. -/
def claimed_order (nA nC : ℕ) : List String :=
  expand4 motion_base_names ++ expand4 gs_base_names ++
    ["framewise_displacement", "dvars", "std_dvars"] ++
    sortStr (acomp_names nA) ++ sortStr (cosine_drift_names nC)

/-! ## The preproc variant's CompCor block

In the preproc variant, `run_compcor` (lines 166-187) ends by reading the
components file nipype wrote:

    comps = np.loadtxt(comp_path)
    comps = pd.read_csv(comp_path, sep=..., engine="python")
    if comps.ndim == 1: comps = comps[:, None]
    return comps

nipype's CompCor saves `components_file` with
`np.savetxt(..., header=tab-joined column names, comments="")`, so the file
always begins with an unescaped text header line.  `np.loadtxt` parses
every whitespace-separated cell as a float and raises `ValueError` at the
first non-numeric cell — the first header name — so the `pd.read_csv`
overwrite is never reached.  Were the read to succeed (an all-numeric
file, which nipype never writes), `run_compcor` would return the
`pd.read_csv` DataFrame and `main` would insert its columns with
`acomp[:, i]` (lines 259-264), a (slice, int) tuple index that a pandas
DataFrame rejects whenever the loop runs, i.e. whenever the frame has at
least one column.  `main` runs the three `run_compcor` calls (lines
251-253) and then the insertion loops, all before the mean-signal
assignments (lines 267-269) and the `to_csv` write (line 272), so the
preproc variant aborts before any confound table is assembled. -/
inductive TxtCell
  | num (q : ℚ)
  | str (s : String)

/-- One line of `np.loadtxt` parsing: every cell must parse as a float. -/
def parse_float_row : List TxtCell → Except String (List ℚ)
  | [] => .ok []
  | .num q :: rest =>
    match parse_float_row rest with
    | .ok r => .ok (q :: r)
    | .error e => .error e
  | .str _ :: _ => .error "could not convert string to float64"

/-- `np.loadtxt` on a whitespace-separated text file. -/
def loadtxt_cells : List (List TxtCell) → Except String (List (List ℚ))
  | [] => .ok []
  | r :: rest =>
    match parse_float_row r with
    | .error e => .error e
    | .ok v =>
      match loadtxt_cells rest with
      | .error e => .error e
      | .ok vs => .ok (v :: vs)

/-- The components file nipype's CompCor writes: the header line of column
names first (written with `comments=""`, so not escaped), then the numeric
component rows. -/
def nipype_components_file (names : List String) (comps : List (List ℚ)) :
    List (List TxtCell) :=
  names.map TxtCell.str :: comps.map (fun r => r.map TxtCell.num)

/-- The read at preproc `run_compcor` line 183, the first thing done with
the components file. -/
def preproc_compcor_read (file : List (List TxtCell)) :
    Except String (List (List ℚ)) :=
  loadtxt_cells file

/-- `main`'s insertion loop for one returned CompCor frame (lines 259-264):
`acomp[:, i]` over the `pd.read_csv` DataFrame raises whenever the frame
has at least one column (its column count is the file's first-line cell
count, since `read_csv` takes the first line as the header). -/
def preproc_acomp_insert (acompCols : ℕ) : Except String Unit :=
  if acompCols = 0 then .ok () else .error "unhashable type: slice"

/-- The preproc `main` CompCor block (lines 251-264): the three reads run
first, then the three insertion loops; the first error aborts `main`
before the mean-signal columns and the table write. -/
def preproc_compcor_block (wm csf u : List (List TxtCell)) : Except String Unit :=
  match preproc_compcor_read wm with
  | .error e => .error e
  | .ok _ =>
    match preproc_compcor_read csf with
    | .error e => .error e
    | .ok _ =>
      match preproc_compcor_read u with
      | .error e => .error e
      | .ok _ =>
        match preproc_acomp_insert (wm.headD []).length with
        | .error e => .error e
        | .ok _ =>
          match preproc_acomp_insert (csf.headD []).length with
          | .error e => .error e
          | .ok _ => preproc_acomp_insert (u.headD []).length

/-- The experimental `main` sequencing relevant to claim C3: the row-count
guard runs before the confound table is assembled. -/
def experimental_pipeline (rows T nA nC : ℕ) : Except String (List String) :=
  match motion_rows_guard rows T with
  | .error e => .error e
  | .ok _ => .ok (experimental_final_names nA nC)

/-! ## Discrete cosine drift basis

Embeds `cosine_drift_terms` from the experimental variant, lines 234-277.
The `try` branch calls nilearn's private `_cosine_drift` with three
positional arguments while that function takes two, so the call raises
`TypeError`, the bare `except` catches it, and the in-repository fallback
always runs: `K = int(floor(2 * T * tr / cutoff))`; if `K < 1` an empty
basis is returned (no error); otherwise columns
`cos(pi * (2n + 1) * k / (2T))` for `k = 1..K`, after which any column with
`np.nanstd(column) <= 1e-12` is dropped. -/
noncomputable def dct_col (T k : ℕ) (n : ℕ) : ℝ :=
  Real.cos (Real.pi * (2 * n + 1) * k / (2 * T))

noncomputable def col_mean (T : ℕ) (c : ℕ → ℝ) : ℝ :=
  (∑ n ∈ Finset.range T, c n) / T

noncomputable def col_var (T : ℕ) (c : ℕ → ℝ) : ℝ :=
  (∑ n ∈ Finset.range T, (c n - col_mean T c) ^ 2) / T

noncomputable def col_std (T : ℕ) (c : ℕ → ℝ) : ℝ := Real.sqrt (col_var T c)

/-- The survival test of the constant-column pruning: `np.nanstd(col) > 1e-12`. -/
def keep_col (T : ℕ) (c : ℕ → ℝ) : Prop := 1e-12 < col_std T c

/-- Number of requested cosine terms: `int(np.floor(2 * T * tr / cutoff))`. -/
noncomputable def drift_K (T : ℕ) (tr cutoff : ℝ) : ℤ :=
  ⌊2 * ((T : ℝ) * tr) / cutoff⌋

open Classical in
noncomputable def cosine_drift_terms (T : ℕ) (tr cutoff : ℝ) : List (ℕ → ℝ) :=
  if drift_K T tr cutoff < 1 then []
  else ((List.range (drift_K T tr cutoff).toNat).map (fun i => dct_col T (i + 1))).filter
    (fun c => decide (keep_col T c))

/-! ## Helper lemmas -/

theorem backward_diff_length (x : List ℚ) : (backward_diff x).length = x.length := by
  cases x with
  | nil => rfl
  | cons a t => simp [backward_diff, List.length_zipWith]

theorem mcol_length (mp : List (Fin 6 → ℚ)) (j : Fin 6) :
    (mcol mp j).length = mp.length := List.length_map _ _

theorem mcol_cons (r : Fin 6 → ℚ) (mp : List (Fin 6 → ℚ)) (j : Fin 6) :
    mcol (r :: mp) j = r j :: mcol mp j := rfl

/-- The motion DataFrame, written out: six raw columns, their backward
differences, their squares, and the squares of the differences, in the
insertion order `add_fmriprep_expansions` produces. -/
theorem motion_df_eq (mp : List (Fin 6 → ℚ)) :
    motion_df_from_mcflirt mp =
      [("trans_x", mcol mp 3), ("trans_y", mcol mp 4), ("trans_z", mcol mp 5),
       ("rot_x", mcol mp 0), ("rot_y", mcol mp 1), ("rot_z", mcol mp 2),
       ("trans_x_derivative1", backward_diff (mcol mp 3)),
       ("trans_y_derivative1", backward_diff (mcol mp 4)),
       ("trans_z_derivative1", backward_diff (mcol mp 5)),
       ("rot_x_derivative1", backward_diff (mcol mp 0)),
       ("rot_y_derivative1", backward_diff (mcol mp 1)),
       ("rot_z_derivative1", backward_diff (mcol mp 2)),
       ("trans_x_power2", (mcol mp 3).map (fun v => v ^ 2)),
       ("trans_y_power2", (mcol mp 4).map (fun v => v ^ 2)),
       ("trans_z_power2", (mcol mp 5).map (fun v => v ^ 2)),
       ("rot_x_power2", (mcol mp 0).map (fun v => v ^ 2)),
       ("rot_y_power2", (mcol mp 1).map (fun v => v ^ 2)),
       ("rot_z_power2", (mcol mp 2).map (fun v => v ^ 2)),
       ("trans_x_derivative1_power2", (backward_diff (mcol mp 3)).map (fun v => v ^ 2)),
       ("trans_y_derivative1_power2", (backward_diff (mcol mp 4)).map (fun v => v ^ 2)),
       ("trans_z_derivative1_power2", (backward_diff (mcol mp 5)).map (fun v => v ^ 2)),
       ("rot_x_derivative1_power2", (backward_diff (mcol mp 0)).map (fun v => v ^ 2)),
       ("rot_y_derivative1_power2", (backward_diff (mcol mp 1)).map (fun v => v ^ 2)),
       ("rot_z_derivative1_power2", (backward_diff (mcol mp 2)).map (fun v => v ^ 2))] := rfl

/-- A string pasted between two others is an infix of the concatenation, at
the character-list level. -/
theorem data_infix_of_append (a x b : String) :
    List.IsInfix x.data (a ++ x ++ b).data :=
  ⟨a.data, b.data, by simp [String.data_append]⟩

/-! ## Claim C1 -/

/-- Claim C1, amended: the experimental variant's `enforce_length_1d`
(called for DVARS with `pad_value=np.nan`) returns a length-`T` input
unchanged, pads a length `T-1` or `T-2` input with leading NaN markers to
length `T`, and raises for any other length; the preproc variant instead
pads only a length `T-2` DVARS series, and fills the missing leading frames
with literal zeros rather than the missing-value marker. -/
theorem C1_dvars_length_policy : ∀ (T : ℕ) (xs : List RVal),
    (xs.length = T → enforce_length_1d "dvars" (some xs) T none = .ok xs)
    ∧ ((xs.length : ℤ) = (T : ℤ) - 1 ∨ (xs.length : ℤ) = (T : ℤ) - 2 →
        enforce_length_1d "dvars" (some xs) T none =
          .ok (List.replicate (T - xs.length) none ++ xs)
        ∧ (List.replicate (T - xs.length) (none : RVal) ++ xs).length = T)
    ∧ (xs.length ≠ T → (xs.length : ℤ) ≠ (T : ℤ) - 1 → (xs.length : ℤ) ≠ (T : ℤ) - 2 →
        ∃ msg, enforce_length_1d "dvars" (some xs) T none = .error msg)
    ∧ ((xs.length : ℤ) = (T : ℤ) - 2 →
        preproc_assign_dvars xs T = .ok (some 0 :: some 0 :: xs)) := by
  intro T xs
  refine ⟨fun h => ?_, fun h => ?_, fun h1 h2 h3 => ?_, fun h => ?_⟩
  · simp only [enforce_length_1d]
    rw [if_pos h]
  · have hne : xs.length ≠ T := by rcases h with h | h <;> omega
    refine ⟨?_, ?_⟩
    · simp only [enforce_length_1d]
      rw [if_neg hne, if_pos h]
    · simp only [List.length_append, List.length_replicate]
      rcases h with h | h <;> omega
  · simp only [enforce_length_1d]
    rw [if_neg h1, if_neg (not_or.mpr ⟨h2, h3⟩)]
    exact ⟨_, rfl⟩
  · have hp : preproc_pad_dvars xs T = some 0 :: some 0 :: xs := by
      simp only [preproc_pad_dvars]
      rw [if_pos h]
    have hl : (some 0 :: some 0 :: xs : List RVal).length = T := by
      simp only [List.length_cons]
      omega
    simp only [preproc_assign_dvars, hp]
    rw [if_pos hl]

/-- Witness for C1 at `T = 5` and a length-3 (`T-2`) series. -/
theorem C1_dvars_length_policy_witness :
    enforce_length_1d "dvars" (some [some 1, some 2, some 3]) 5 none =
      .ok [none, none, some 1, some 2, some 3]
    ∧ preproc_assign_dvars [some 1, some 2, some 3] 5 =
      .ok [some 0, some 0, some 1, some 2, some 3] := by
  have h := C1_dvars_length_policy 5 [some 1, some 2, some 3]
  exact ⟨(h.2.1 (by decide)).1, h.2.2.2 (by decide)⟩

/-- Counterexample to C1 as stated: in the preproc variant a length `T-2`
DVARS series is padded with zeros, not with the missing-value marker, and a
length `T-1` series is not padded at all but raises. -/
theorem C1_preproc_zero_padding :
    preproc_assign_dvars [some 1, some 2] 4 = .ok [some 0, some 0, some 1, some 2]
    ∧ preproc_assign_dvars [some 1, some 2, some 3] 4 =
      .error "Length of values does not match length of index"
    ∧ (some (0 : ℚ) : RVal) ≠ none := by
  refine ⟨rfl, rfl, by simp⟩

/-! ## Claim C3 -/

/-- Claim C3: if the motion file's row count differs from the 4D volume's
frame count `T`, the experimental pipeline fails before assembling the
table, with an error message containing both counts; equal counts pass the
guard. -/
theorem C3_motion_rows_mismatch : ∀ rows T nA nC : ℕ,
    (rows ≠ T → ∃ msg, experimental_pipeline rows T nA nC = .error msg
      ∧ List.IsInfix (toString rows).toList msg.toList
      ∧ List.IsInfix (toString T).toList msg.toList)
    ∧ (rows = T →
        experimental_pipeline rows T nA nC = .ok (experimental_final_names nA nC)) := by
  intro rows T nA nC
  constructor
  · intro h
    have hg : motion_rows_guard rows T =
        .error ("Motion rows (" ++ toString rows ++ ") != BOLD timepoints (" ++
          toString T ++ "). If you dropped volumes, drop matching rows everywhere.") := by
      simp only [motion_rows_guard]
      rw [if_pos h]
    refine ⟨"Motion rows (" ++ toString rows ++ ") != BOLD timepoints (" ++
      toString T ++ "). If you dropped volumes, drop matching rows everywhere.",
      ?_, ?_, ?_⟩
    · simp only [experimental_pipeline, hg]
    · have := data_infix_of_append "Motion rows (" (toString rows)
        (") != BOLD timepoints (" ++ toString T ++
          "). If you dropped volumes, drop matching rows everywhere.")
      simpa [String.data_append, List.append_assoc, String.toList] using this
    · have := data_infix_of_append
        ("Motion rows (" ++ toString rows ++ ") != BOLD timepoints (") (toString T)
        ("). If you dropped volumes, drop matching rows everywhere.")
      simpa [String.data_append, List.append_assoc, String.toList] using this
  · intro h
    have hg : motion_rows_guard rows T = .ok () := by
      simp only [motion_rows_guard]
      rw [if_neg (by omega)]
    simp only [experimental_pipeline, hg]

/-- Witness for C3 at the spec's scenario: 50 motion rows against 49 frames. -/
theorem C3_motion_rows_mismatch_witness :
    ∃ msg, experimental_pipeline 50 49 0 0 = .error msg
      ∧ List.IsInfix (toString 50).toList msg.toList
      ∧ List.IsInfix (toString 49).toList msg.toList :=
  (C3_motion_rows_mismatch 50 49 0 0).1 (by decide)

/-! ## Claim C6 -/

/-- Claim C6 states the code's intent but not its behavior: for a mask with
at least one voxel, `mean_signal` returns a series of length exactly `T`;
but for a zero-voxel mask, nilearn's `apply_mask` raises `ValueError`
before `mean_signal`'s own NaN fallback — the very behavior the claim
describes, written out in the source as `if X.shape[1] == 0: return
np.full((T,), np.nan)` — can run, so the pipeline raises instead of
returning the missing-value series. -/
theorem C6_mean_signal_empty_mask_raises :
    (∀ (T V : ℕ) (X : ℕ → ℕ → ℚ),
        ∃ ys, mean_signal T (V + 1) X = .ok ys ∧ ys.length = T)
    ∧ ∀ (T : ℕ) (X : ℕ → ℕ → ℚ),
        mean_signal T 0 X =
          .error "The mask is invalid as it is empty: it masks all data." := by
  constructor
  · intro T V X
    refine ⟨(List.range T).map
      (fun t => some ((∑ v ∈ Finset.range (V + 1), X t v) / ((V + 1 : ℕ) : ℚ))), ?_, by simp⟩
    have hv : V + 1 ≠ 0 := by omega
    simp only [mean_signal, apply_mask]
    rw [if_neg hv]
    rfl
  · intro T X
    rfl

/-! ## Claim C8 -/

/-- Claim C8, amended: in the preproc variant any accepted FD series has
length `T` and, when the raw series had length `T-1`, first entry exactly 0
(the chosen convention); in the old variant the first FD entry is likewise
the defined value 0.  (In the experimental variant a short FD series is
instead padded with the NaN missing-value marker, so its first entry is the
marker — see the counterexample.) -/
theorem C8_fd_first_frame_defined :
    (∀ (T : ℕ) (xs ys : List RVal), preproc_fd_assign xs T = .ok ys →
      ys.length = T ∧ ((xs.length : ℤ) = (T : ℤ) - 1 → ys.head? = some (some 0)))
    ∧ (∀ motion : List (Fin 6 → ℚ), motion ≠ [] →
        (old_fd motion).head? = some 0 ∧ (old_fd motion).length = motion.length) := by
  constructor
  · intro T xs ys h
    by_cases h1 : xs.length = T
    · rw [preproc_fd_assign, if_pos h1] at h
      cases h
      exact ⟨h1, fun h2 => by omega⟩
    · by_cases h2 : (xs.length : ℤ) = (T : ℤ) - 1
      · rw [preproc_fd_assign, if_neg h1, if_pos h2] at h
        cases h
        refine ⟨by simp only [List.length_cons]; omega, fun _ => rfl⟩
      · rw [preproc_fd_assign, if_neg h1, if_neg h2] at h
        cases h
  · intro motion hm
    match motion with
    | r :: rest =>
      refine ⟨rfl, ?_⟩
      simp only [old_fd, List.length_cons, List.length_zipWith]
      omega

/-- Witness for C8: a length-1 FD series accepted at `T = 2`, and a
one-frame motion table for the old variant. -/
theorem C8_fd_first_frame_defined_witness :
    (([some 0, some 5] : List RVal).length = 2
      ∧ ((([some 5] : List RVal).length : ℤ) = (2 : ℤ) - 1 →
          ([some 0, some 5] : List RVal).head? = some (some 0)))
    ∧ ((old_fd [![0, 0, 0, 0, 0, 0]]).head? = some 0
        ∧ (old_fd [![0, 0, 0, 0, 0, 0]]).length = [![(0 : ℚ), 0, 0, 0, 0, 0]].length) :=
  ⟨C8_fd_first_frame_defined.1 2 [some 5] [some 0, some 5] rfl,
   C8_fd_first_frame_defined.2 [![0, 0, 0, 0, 0, 0]] (by simp)⟩

/-- Counterexample to C8 as stated: the experimental variant hands FD to
`enforce_length_1d` with `pad_value=np.nan`, so for a length `T-1` FD series
the first frame of the stored column is the missing-value marker, not a
defined number. -/
theorem C8_experimental_fd_first_frame_missing :
    enforce_length_1d "framewise_displacement" (some [some 1, some 2]) 3 none =
      .ok [none, some 1, some 2]
    ∧ ([none, some 1, some 2] : List RVal).head? = some none := ⟨rfl, rfl⟩

/-! ## Claim C10 -/

/-- Claim C10: the motion loader rejects any parse that is not 2-D with six
columns — in particular a one-row (`T = 1`) file, which `np.loadtxt`
squeezes to 1-D — and accepts files with at least two 6-entry rows. -/
theorem C10_motion_loader_shape :
    (∀ xs : List ℚ, ∃ msg, load_mcflirt_par [xs] = .error msg)
    ∧ (∀ xss : List (List ℚ), 2 ≤ xss.length → (∀ r ∈ xss, r.length = 6) →
        load_mcflirt_par xss = .ok xss) := by
  constructor
  · intro xs
    match xs with
    | [] => exact ⟨_, rfl⟩
    | [x] => exact ⟨_, rfl⟩
    | x :: y :: rest => exact ⟨_, rfl⟩
  · intro xss h2 h6
    match xss with
    | [] => simp at h2
    | [r] => simp at h2
    | r1 :: r2 :: rest =>
      have hr1 : r1.length = 6 := h6 r1 (by simp)
      have hnp : np_loadtxt (r1 :: r2 :: rest) = .d2 (r1 :: r2 :: rest) := by
        have hall : ((r1 :: r2 :: rest).all (fun r => r.length == 1)) = false := by
          simp only [List.all_cons, hr1, Bool.and_eq_false_imp]
          simp
        simp only [np_loadtxt, hall]
        simp
      simp only [load_mcflirt_par, hnp, List.headD_cons, hr1, if_pos rfl, if_true]

/-- Witness for C10: a single 6-entry row is rejected; two 6-entry rows are
accepted. -/
theorem C10_motion_loader_shape_witness :
    (∃ msg, load_mcflirt_par [[0, 0, 0, 0, 0, 0]] = .error msg)
    ∧ load_mcflirt_par [[0, 0, 0, 0, 0, 0], [1, 1, 1, 1, 1, 1]] =
      .ok [[0, 0, 0, 0, 0, 0], [1, 1, 1, 1, 1, 1]] :=
  ⟨C10_motion_loader_shape.1 [0, 0, 0, 0, 0, 0],
   C10_motion_loader_shape.2 [[0, 0, 0, 0, 0, 0], [1, 1, 1, 1, 1, 1]] (by simp)
     (by intro r hr; simp only [List.mem_cons, List.not_mem_nil, or_false] at hr
         rcases hr with rfl | rfl <;> rfl)⟩

/-! ## Claim C2 -/

/-- Claim C2: for a `T`-frame motion trace (`T ≥ 1`) the expanded motion
table has exactly 24 columns — the six raw motion columns, their backward
first differences, their squares, and the squares of the differences, in
that order — every column has exactly `T` rows, and for each of the six
motion parameters both derivative columns (`*_derivative1` and
`*_derivative1_power2`, the 12 derivative columns of the table) have first
entry exactly 0. -/
theorem C2_motion_expansion : ∀ (mp : List (Fin 6 → ℚ)) (T : ℕ),
    mp.length = T → 1 ≤ T →
    (motion_df_from_mcflirt mp).length = 24
    ∧ (motion_df_from_mcflirt mp).map Prod.fst = expand4 motion_base_names
    ∧ (∀ p ∈ motion_df_from_mcflirt mp, p.2.length = T)
    ∧ (∀ c ∈ motion_base_names,
        (dfLookup (motion_df_from_mcflirt mp) (c ++ "_derivative1")).head? = some 0
        ∧ (dfLookup (motion_df_from_mcflirt mp) (c ++ "_derivative1_power2")).head? =
          some 0) := by
  intro mp T hlen hT
  obtain ⟨r, rest, rfl⟩ : ∃ r rest, mp = r :: rest := by
    cases mp with
    | nil => simp at hlen; omega
    | cons r rest => exact ⟨r, rest, rfl⟩
  refine ⟨by rw [motion_df_eq]; rfl, by rw [motion_df_eq]; rfl, ?_, ?_⟩
  · intro p hp
    rw [motion_df_eq] at hp
    fin_cases hp <;>
      simp [mcol_length, backward_diff_length, List.length_map, hlen]
  · intro c hc
    fin_cases hc <;> exact ⟨rfl, rfl⟩

/-- Concrete two-frame motion trace used by the C2 witness. -/
def mp_demo : List (Fin 6 → ℚ) := [![1, 2, 3, 4, 5, 6], ![2, 2, 2, 2, 2, 2]]

/-- Witness for C2 on a concrete two-frame trace. -/
theorem C2_motion_expansion_witness :
    (motion_df_from_mcflirt mp_demo).length = 24
    ∧ (motion_df_from_mcflirt mp_demo).map Prod.fst = expand4 motion_base_names
    ∧ (∀ p ∈ motion_df_from_mcflirt mp_demo, p.2.length = 2)
    ∧ (∀ c ∈ motion_base_names,
        (dfLookup (motion_df_from_mcflirt mp_demo) (c ++ "_derivative1")).head? = some 0
        ∧ (dfLookup (motion_df_from_mcflirt mp_demo) (c ++ "_derivative1_power2")).head? =
          some 0) :=
  C2_motion_expansion mp_demo 2 rfl (by norm_num)

/-! ## Claim C5 -/

theorem listPrefix_self_append (l t : List Char) : listPrefix l (l ++ t) = true := by
  induction l with
  | nil => rfl
  | cons a as ih => simp [listPrefix, ih]

theorem startswith_append (pre suf : String) : startswith (pre ++ suf) pre = true := by
  simp only [startswith, String.toList, String.data_append]
  exact listPrefix_self_append _ _

theorem cosine_not_acomp (i : ℕ) :
    startswith ("cosine_" ++ pad2 i) "a_comp_cor_" = false := by
  simp only [startswith, String.toList, String.data_append]
  rfl

theorem acomp_not_cosine (i : ℕ) :
    startswith ("a_comp_cor_" ++ pad2 i) "cosine_" = false := by
  simp only [startswith, String.toList, String.data_append]
  rfl

theorem filter_motion_acomp :
    (expand4 motion_base_names).filter (fun c => startswith c "a_comp_cor_") = [] := rfl

theorem filter_gs_acomp :
    (expand4 gs_base_names).filter (fun c => startswith c "a_comp_cor_") = [] := rfl

theorem filter_fdcols_acomp :
    (["framewise_displacement", "dvars", "std_dvars"].filter
      (fun c => startswith c "a_comp_cor_")) = [] := rfl

theorem filter_motion_cosine :
    (expand4 motion_base_names).filter (fun c => startswith c "cosine_") = [] := rfl

theorem filter_gs_cosine :
    (expand4 gs_base_names).filter (fun c => startswith c "cosine_") = [] := rfl

theorem filter_fdcols_cosine :
    (["framewise_displacement", "dvars", "std_dvars"].filter
      (fun c => startswith c "cosine_")) = [] := rfl

theorem filter_acomp_names_self (nA : ℕ) :
    (acomp_names nA).filter (fun c => startswith c "a_comp_cor_") = acomp_names nA := by
  apply List.filter_eq_self.mpr
  intro a ha
  obtain ⟨i, _, rfl⟩ := List.mem_map.mp ha
  exact startswith_append _ _

theorem filter_cosine_names_self (nC : ℕ) :
    (cosine_drift_names nC).filter (fun c => startswith c "cosine_") =
      cosine_drift_names nC := by
  apply List.filter_eq_self.mpr
  intro a ha
  obtain ⟨i, _, rfl⟩ := List.mem_map.mp ha
  exact startswith_append _ _

theorem filter_cosine_names_acomp (nC : ℕ) :
    (cosine_drift_names nC).filter (fun c => startswith c "a_comp_cor_") = [] := by
  apply List.filter_eq_nil_iff.mpr
  intro a ha
  obtain ⟨i, _, rfl⟩ := List.mem_map.mp ha
  simp [cosine_not_acomp]

theorem filter_acomp_names_cosine (nA : ℕ) :
    (acomp_names nA).filter (fun c => startswith c "cosine_") = [] := by
  apply List.filter_eq_nil_iff.mpr
  intro a ha
  obtain ⟨i, _, rfl⟩ := List.mem_map.mp ha
  simp [acomp_not_cosine]

theorem conf_filter_acomp (nA nC : ℕ) :
    (experimental_conf_names nA nC).filter (fun c => startswith c "a_comp_cor_") =
      acomp_names nA := by
  simp only [experimental_conf_names, List.filter_append, filter_motion_acomp,
    filter_gs_acomp, filter_fdcols_acomp, filter_acomp_names_self,
    filter_cosine_names_acomp, List.nil_append, List.append_nil]

theorem conf_filter_cosine (nA nC : ℕ) :
    (experimental_conf_names nA nC).filter (fun c => startswith c "cosine_") =
      cosine_drift_names nC := by
  simp only [experimental_conf_names, List.filter_append, filter_motion_cosine,
    filter_gs_cosine, filter_fdcols_cosine, filter_acomp_names_cosine,
    filter_cosine_names_self, List.nil_append, List.append_nil]

theorem mem_insertSorted {a b : String} {l : List String} :
    a ∈ insertSorted b l ↔ a = b ∨ a ∈ l := by
  induction l with
  | nil => simp [insertSorted]
  | cons c cs ih =>
    simp only [insertSorted]
    split
    · simp [List.mem_cons]
    · simp only [List.mem_cons, ih]
      tauto

theorem mem_sortStr {a : String} {l : List String} : a ∈ sortStr l ↔ a ∈ l := by
  induction l with
  | nil => simp [sortStr]
  | cons b bs ih =>
    rw [show sortStr (b :: bs) = insertSorted b (sortStr bs) from rfl, mem_insertSorted]
    simp [ih]

theorem conf_all_in_preferred (nA nC : ℕ) :
    ∀ c ∈ experimental_conf_names nA nC, c ∈ experimental_preferred nA nC := by
  intro c hc
  simp only [experimental_preferred, conf_filter_acomp, conf_filter_cosine]
  simp only [experimental_conf_names, List.append_assoc, List.mem_append] at hc
  simp only [List.append_assoc, List.mem_append, mem_sortStr]
  tauto

theorem experimental_remaining_nil (nA nC : ℕ) :
    (experimental_conf_names nA nC).filter
      (fun c => !decide (c ∈ experimental_preferred nA nC)) = [] := by
  apply List.filter_eq_nil_iff.mpr
  intro a ha
  simp only [Bool.not_eq_true', decide_eq_false_iff_not, not_not]
  exact conf_all_in_preferred nA nC a ha

/-- Claim C5, amended: the experimental variant's assembled table has
exactly the claimed deterministic order — motion (raw, derivative, squared,
derivative-squared), mean signals with the same expansion, framewise
displacement, DVARS raw and standardized, component-noise columns sorted by
name, drift columns sorted by name — and its residual bucket is empty.
(The preproc variant never assembles a table at all: its CompCor block
raises first — see the counterexample.) -/
theorem C5_experimental_column_order : ∀ nA nC : ℕ,
    experimental_final_names nA nC = claimed_order nA nC
    ∧ (experimental_conf_names nA nC).filter
        (fun c => !decide (c ∈ experimental_preferred nA nC)) = [] := by
  intro nA nC
  refine ⟨?_, experimental_remaining_nil nA nC⟩
  simp only [experimental_final_names, experimental_remaining_nil, List.append_nil]
  simp only [experimental_preferred, claimed_order, conf_filter_acomp, conf_filter_cosine]

/-- Counterexample to C5 as stated: the preproc variant — the claim's
second source — never assembles a confound table at all, in any order.
Its `main` reaches the CompCor block with concrete nipype-written
components files (each beginning with its header line), the first
`run_compcor`'s `np.loadtxt` raises at the first header cell, and `main`
aborts before the CompCor columns, the mean-signal columns, or the output
table exist; even a hypothetical headerless all-numeric file fails at the
DataFrame slice-indexing of the insertion loop. -/
theorem C5_preproc_never_assembles :
    preproc_compcor_block
      (nipype_components_file ["a_comp_cor_wm_00"] [[1], [2]])
      (nipype_components_file ["a_comp_cor_csf_00"] [[1], [2]])
      (nipype_components_file ["a_comp_cor_00"] [[1], [2]]) =
      .error "could not convert string to float64"
    ∧ preproc_compcor_block [[TxtCell.num 1]] [[TxtCell.num 1]] [[TxtCell.num 1]] =
      .error "unhashable type: slice" := by
  exact ⟨rfl, rfl⟩

/-! ## Drift-basis helper lemmas -/

theorem col_var_one (c : ℕ → ℝ) : col_var 1 c = 0 := by
  simp [col_var, col_mean, Finset.sum_range_one]

theorem not_keep_one (c : ℕ → ℝ) : ¬ keep_col 1 c := by
  unfold keep_col col_std
  rw [col_var_one, Real.sqrt_zero]
  norm_num

/-- Two distinct sample points bound the population variance from below. -/
theorem two_point_var_lb (T i j : ℕ) (c : ℕ → ℝ) (hi : i < T) (hj : j < T)
    (hij : i ≠ j) : (c i - c j) ^ 2 / (2 * T) ≤ col_var T c := by
  have hT : (0 : ℝ) < T := by
    have : 0 < T := Nat.pos_of_ne_zero (by omega)
    exact_mod_cast this
  unfold col_var
  set μ := col_mean T c with hμ
  have hsub : ({i, j} : Finset ℕ) ⊆ Finset.range T := by
    intro x hx
    simp only [Finset.mem_insert, Finset.mem_singleton] at hx
    rcases hx with rfl | rfl <;> simp [Finset.mem_range, hi, hj]
  have hpair : (c i - μ) ^ 2 + (c j - μ) ^ 2 ≤ ∑ n ∈ Finset.range T, (c n - μ) ^ 2 := by
    have hle := Finset.sum_le_sum_of_subset_of_nonneg hsub
      (fun x _ _ => sq_nonneg (c x - μ))
    rwa [Finset.sum_pair hij] at hle
  have hkey : (c i - c j) ^ 2 / 2 ≤ (c i - μ) ^ 2 + (c j - μ) ^ 2 := by
    nlinarith [sq_nonneg (c i + c j - 2 * μ)]
  rw [show (c i - c j) ^ 2 / (2 * (T : ℝ)) = ((c i - c j) ^ 2 / 2) / T by ring]
  exact (div_le_div_iff_of_pos_right hT).mpr (hkey.trans hpair)

/-- A gap of at least 1 between two entries keeps the column (for any
realistic frame count). -/
theorem keep_col_of_gap (T i j : ℕ) (c : ℕ → ℝ) (hi : i < T) (hj : j < T)
    (hij : i ≠ j) (hT : T ≤ 1000) (hgap : 1 ≤ c i - c j) : keep_col T c := by
  have hT' : (T : ℝ) ≤ 1000 := by exact_mod_cast hT
  have hTpos : (0 : ℝ) < T := by
    have : 0 < T := Nat.pos_of_ne_zero (by omega)
    exact_mod_cast this
  have hlb := two_point_var_lb T i j c hi hj hij
  have h1 : (1 : ℝ) / 2000 ≤ (c i - c j) ^ 2 / (2 * T) := by
    have hsq : (1 : ℝ) ≤ (c i - c j) ^ 2 := by nlinarith
    have h2T : (0 : ℝ) < 2 * T := by positivity
    rw [div_le_div_iff₀ (by norm_num) h2T]
    nlinarith
  have hvar : (1 : ℝ) / 2000 ≤ col_var T c := le_trans h1 hlb
  unfold keep_col col_std
  rw [Real.lt_sqrt (by norm_num)]
  have hsmall : ((1e-12 : ℝ)) ^ 2 < 1 / 2000 := by norm_num
  linarith

theorem half_lt_cos {θ : ℝ} (h0 : 0 ≤ θ) (hlt : θ < Real.pi / 3) :
    1 / 2 < Real.cos θ := by
  have h3 : Real.pi / 3 ≤ Real.pi := by linarith [Real.pi_pos]
  have := Real.cos_lt_cos_of_nonneg_of_le_pi h0 h3 hlt
  rwa [Real.cos_pi_div_three] at this

/-- A column whose entry at `i` is the cosine of a small angle and whose
entry at `j` is minus the cosine of a small angle survives the
constant-column pruning. -/
theorem keep_of_cos_pair (T i j : ℕ) (c : ℕ → ℝ) (φ ψ : ℝ) (hi : i < T) (hj : j < T)
    (hij : i ≠ j) (hT : T ≤ 1000) (hφ0 : 0 ≤ φ) (hφ : φ < Real.pi / 3)
    (hψ0 : 0 ≤ ψ) (hψ : ψ < Real.pi / 3)
    (hci : c i = Real.cos φ) (hcj : c j = -Real.cos ψ) : keep_col T c := by
  apply keep_col_of_gap T i j c hi hj hij hT
  have h1 := half_lt_cos hφ0 hφ
  have h2 := half_lt_cos hψ0 hψ
  rw [hci, hcj]
  linarith

theorem dct100_1_keep : keep_col 100 (dct_col 100 1) := by
  have h0 : dct_col 100 1 0 = Real.cos (Real.pi / 200) := by
    unfold dct_col; congr 1; push_cast; ring
  have h99 : dct_col 100 1 99 = Real.cos (Real.pi - Real.pi / 200) := by
    unfold dct_col; congr 1; push_cast; ring
  rw [Real.cos_pi_sub] at h99
  exact keep_of_cos_pair 100 0 99 _ (Real.pi / 200) (Real.pi / 200)
    (by norm_num) (by norm_num) (by norm_num) (by norm_num)
    (by positivity) (by nlinarith [Real.pi_pos])
    (by positivity) (by nlinarith [Real.pi_pos]) h0 h99

theorem dct100_2_keep : keep_col 100 (dct_col 100 2) := by
  have h0 : dct_col 100 2 0 = Real.cos (Real.pi / 100) := by
    unfold dct_col; congr 1; push_cast; ring
  have h49 : dct_col 100 2 49 = Real.cos (Real.pi - Real.pi / 100) := by
    unfold dct_col; congr 1; push_cast; ring
  rw [Real.cos_pi_sub] at h49
  exact keep_of_cos_pair 100 0 49 _ (Real.pi / 100) (Real.pi / 100)
    (by norm_num) (by norm_num) (by norm_num) (by norm_num)
    (by positivity) (by nlinarith [Real.pi_pos])
    (by positivity) (by nlinarith [Real.pi_pos]) h0 h49

theorem dct100_3_keep : keep_col 100 (dct_col 100 3) := by
  have h0 : dct_col 100 3 0 = Real.cos (Real.pi * 3 / 200) := by
    unfold dct_col; congr 1; push_cast; ring
  have h32 : dct_col 100 3 32 = Real.cos (Real.pi - Real.pi / 40) := by
    unfold dct_col; congr 1; push_cast; ring
  rw [Real.cos_pi_sub] at h32
  exact keep_of_cos_pair 100 0 32 _ (Real.pi * 3 / 200) (Real.pi / 40)
    (by norm_num) (by norm_num) (by norm_num) (by norm_num)
    (by positivity) (by nlinarith [Real.pi_pos])
    (by positivity) (by nlinarith [Real.pi_pos]) h0 h32

theorem dct40_1_keep : keep_col 40 (dct_col 40 1) := by
  have h0 : dct_col 40 1 0 = Real.cos (Real.pi / 80) := by
    unfold dct_col; congr 1; push_cast; ring
  have h39 : dct_col 40 1 39 = Real.cos (Real.pi - Real.pi / 80) := by
    unfold dct_col; congr 1; push_cast; ring
  rw [Real.cos_pi_sub] at h39
  exact keep_of_cos_pair 40 0 39 _ (Real.pi / 80) (Real.pi / 80)
    (by norm_num) (by norm_num) (by norm_num) (by norm_num)
    (by positivity) (by nlinarith [Real.pi_pos])
    (by positivity) (by nlinarith [Real.pi_pos]) h0 h39

theorem drift_K_100 : drift_K 100 2 128 = 3 := by
  unfold drift_K; norm_num [Int.floor_eq_iff]

theorem drift_K_40 : drift_K 40 2 128 = 1 := by
  unfold drift_K; norm_num [Int.floor_eq_iff]

theorem drift_K_10 : drift_K 10 2 128 = 0 := by
  unfold drift_K; norm_num [Int.floor_eq_iff]

theorem drift_K_1_64 : drift_K 1 64 128 = 1 := by
  unfold drift_K; norm_num [Int.floor_eq_iff]

open Classical in
theorem cosine_terms_100 :
    cosine_drift_terms 100 2 128 = [dct_col 100 1, dct_col 100 2, dct_col 100 3] := by
  unfold cosine_drift_terms
  rw [drift_K_100, if_neg (by norm_num)]
  rw [show ((3 : ℤ).toNat) = 3 from rfl, show List.range 3 = [0, 1, 2] from rfl]
  simp only [List.map_cons, List.map_nil]
  show List.filter _ [dct_col 100 1, dct_col 100 2, dct_col 100 3] = _
  simp only [List.filter_cons, List.filter_nil, decide_eq_true dct100_1_keep,
    decide_eq_true dct100_2_keep, decide_eq_true dct100_3_keep, if_true]

open Classical in
theorem cosine_terms_40 : cosine_drift_terms 40 2 128 = [dct_col 40 1] := by
  unfold cosine_drift_terms
  rw [drift_K_40, if_neg (by norm_num)]
  rw [show ((1 : ℤ).toNat) = 1 from rfl, show List.range 1 = [0] from rfl]
  simp only [List.map_cons, List.map_nil]
  show List.filter _ [dct_col 40 1] = _
  simp only [List.filter_cons, List.filter_nil, decide_eq_true dct40_1_keep, if_true]

open Classical in
theorem cosine_terms_1_64 : cosine_drift_terms 1 64 128 = [] := by
  unfold cosine_drift_terms
  rw [drift_K_1_64, if_neg (by norm_num)]
  rw [show ((1 : ℤ).toNat) = 1 from rfl, show List.range 1 = [0] from rfl]
  simp only [List.map_cons, List.map_nil]
  show List.filter _ [dct_col 1 1] = _
  simp only [List.filter_cons, List.filter_nil,
    decide_eq_false (not_keep_one (dct_col 1 1))]
  norm_num

theorem keep_col_var_pos {T : ℕ} {c : ℕ → ℝ} (hk : keep_col T c) :
    0 < col_var T c := by
  unfold keep_col col_std at hk
  exact Real.sqrt_pos.mp (lt_trans (by norm_num) hk)

/-- A column that is constant on the first `T` frames has zero variance. -/
theorem const_col_var_zero (T : ℕ) (c : ℕ → ℝ)
    (h : ∀ i j, i < T → j < T → c i = c j) : col_var T c = 0 := by
  rcases Nat.eq_zero_or_pos T with rfl | hT
  · simp [col_var]
  · have hT' : ((T : ℝ)) ≠ 0 := Nat.cast_ne_zero.mpr (by omega)
    have hval : ∀ n ∈ Finset.range T, c n = c 0 := fun n hn =>
      h n 0 (Finset.mem_range.mp hn) hT
    have hmean : col_mean T c = c 0 := by
      unfold col_mean
      rw [Finset.sum_congr rfl hval, Finset.sum_const, Finset.card_range, nsmul_eq_mul,
        mul_div_cancel_left₀ _ hT']
    unfold col_var
    rw [hmean]
    have hz : ∀ n ∈ Finset.range T, (c n - c 0) ^ 2 = 0 := fun n hn => by
      rw [hval n hn]; ring
    rw [Finset.sum_congr rfl hz, Finset.sum_const, smul_zero, zero_div]

/-! ## Claim C4 -/

/-- Claim C4, amended: the drift builder produces at most
`floor(2 * T * tr / cutoff)` columns (the pruning can remove some, e.g. for
`T = 1` — see the counterexample); when that number is less than 1 it
returns an empty basis rather than raising; the spec's two scenarios hold
exactly: `T = 100, tr = 2, cutoff = 128` yields 3 columns and
`T = 10, tr = 2, cutoff = 128` yields 0 columns. -/
theorem C4_drift_column_count :
    (∀ (T : ℕ) (tr cutoff : ℝ),
        (cosine_drift_terms T tr cutoff).length ≤ (drift_K T tr cutoff).toNat)
    ∧ (cosine_drift_terms 100 2 128).length = 3
    ∧ cosine_drift_terms 10 2 128 = [] := by
  refine ⟨?_, by rw [cosine_terms_100]; rfl, ?_⟩
  · intro T tr cutoff
    unfold cosine_drift_terms
    split
    · simp
    · exact le_trans (List.length_filter_le _ _) (by simp)
  · unfold cosine_drift_terms
    rw [drift_K_10]
    simp

/-- Counterexample to C4 as stated: at `T = 1, tr = 64, cutoff = 128` the
requested column count is `floor(2 * 64 / 128) = 1`, but the single
generated column has zero standard deviation (any length-1 column does) and
is pruned, so 0 columns are produced, not `floor(2 * T * tr / cutoff)`. -/
theorem C4_pruned_below_floor :
    drift_K 1 64 128 = 1 ∧ (cosine_drift_terms 1 64 128).length = 0 :=
  ⟨drift_K_1_64, by rw [cosine_terms_1_64]; rfl⟩

/-! ## Claim C9 -/

open Classical in
/-- Claim C9, amended: the drift builder produces zero columns whenever
twice the scan duration is below the cutoff (`2 * T * tr < cutoff`, i.e.
duration shorter than half the cutoff — not duration shorter than the
cutoff, see the counterexample); and no column it produces is numerically
constant. -/
theorem C9_drift_shortscan_nonconstant :
    (∀ (T : ℕ) (tr cutoff : ℝ), 0 < cutoff → 2 * ((T : ℝ) * tr) < cutoff →
        cosine_drift_terms T tr cutoff = [])
    ∧ (∀ (T : ℕ) (tr cutoff : ℝ) (c : ℕ → ℝ), c ∈ cosine_drift_terms T tr cutoff →
        ∃ i j, i < T ∧ j < T ∧ c i ≠ c j) := by
  constructor
  · intro T tr cutoff hcut hlt
    unfold cosine_drift_terms
    rw [if_pos]
    unfold drift_K
    rw [Int.floor_lt]
    push_cast
    exact (div_lt_one hcut).mpr hlt
  · intro T tr cutoff c hc
    unfold cosine_drift_terms at hc
    split at hc
    · simp at hc
    · have hk : keep_col T c := by
        have := List.of_mem_filter hc
        exact of_decide_eq_true this
      by_contra hcon
      push_neg at hcon
      have hzero : col_var T c = 0 := const_col_var_zero T c hcon
      have := keep_col_var_pos hk
      rw [hzero] at this
      exact lt_irrefl 0 this

/-- Witness for C9: a 5-frame scan at `tr = 1` (duration 5s, well under half
the 128s cutoff) yields the empty basis, and the one column produced at
`T = 40, tr = 2, cutoff = 128` is non-constant. -/
theorem C9_drift_shortscan_nonconstant_witness :
    cosine_drift_terms 5 1 128 = []
    ∧ ∃ i j, i < 40 ∧ j < 40 ∧ dct_col 40 1 i ≠ dct_col 40 1 j :=
  ⟨C9_drift_shortscan_nonconstant.1 5 1 128 (by norm_num) (by norm_num),
   C9_drift_shortscan_nonconstant.2 40 2 128 (dct_col 40 1)
     (by rw [cosine_terms_40]; exact List.mem_singleton_self _)⟩

/-- Counterexample to C9 as stated: at `T = 40, tr = 2, cutoff = 128` the
scan duration (80s) is shorter than the cutoff period (128s), yet one drift
column is produced. -/
theorem C9_short_scan_nonzero_columns :
    ((40 : ℕ) : ℝ) * 2 < 128 ∧ (cosine_drift_terms 40 2 128).length = 1 :=
  ⟨by norm_num, by rw [cosine_terms_40]; rfl⟩
